import Mathlib

/-!
Verification development for the UK housing analytics engine
(`Home.py`, `database.py`, `fred_integration.py`, `pages/2_Transaction_Volumes.py`).

The pure data-shaping operations of the dashboard are embedded shallowly:

* cell values of pandas frames are modelled by `PVal`, a rational number
  extended with `+inf`, `-inf` and `NaN` following IEEE/numpy arithmetic on
  the operations actually used (subtraction, multiplication, division,
  rounding).  Raw data values are exact rationals;
* `pivot` models `DataFrame.pivot(index='year', columns='region',
  values='median_price')`: it fails on duplicate (year, region) pairs and
  sorts both the year index and the region columns ascending;
* `mulAxis0` models `df.mul(series, axis=0)`: alignment on the union of the
  year indices, with NaN for years missing on either side;
* `indexFirst` models `df.apply(lambda x: x / x.iloc[0])`;
* `process_price_data` models the function of the same name in `Home.py`;
* `compare_monthly_releases` models the SQL of the function of the same
  name in `database.py` (a LEFT JOIN from the current release's monthly
  counts, COALESCE on the previous side, ROUND(..., 1) half away from zero);
* `yoy_change_cell` models the year-over-year pandas expression of
  `pages/2_Transaction_Volumes.py` lines 201-202;
* `pyRange0`, `bound`, `volume_bands`, `matchIdx` model the price-band
  construction of `database.py::volume_by_price` lines 319-322 together with
  the first-match semantics of the generated SQL `CASE` expression;
* `get_uk_cpi` / `get_uk_rpi_factors` model the adjustment-factor
  computation of `fred_integration.py` (the network fetch and CSV cleaning
  are the external collaborators of the spec; the functions here receive the
  fetched annual series as input).
-/

/-- A pandas/numpy float cell value: a finite rational, `+inf`, `-inf` or
`NaN`.  Finite values are exact rationals; the dashboard's data (prices,
counts, index values) is decimal so this loses no behaviour relevant to the
claims, which are about the inf/NaN/null policy, not float rounding. -/
inductive PVal where
  | fin : ℚ → PVal
  | pinf : PVal
  | ninf : PVal
  | nan : PVal
deriving DecidableEq, Repr

/-- IEEE subtraction on `PVal` (NaN propagates, inf - inf = NaN). -/
def PVal.sub : PVal → PVal → PVal
  | .nan, _ => .nan
  | _, .nan => .nan
  | .fin a, .fin b => .fin (a - b)
  | .fin _, .pinf => .ninf
  | .fin _, .ninf => .pinf
  | .pinf, .fin _ => .pinf
  | .ninf, .fin _ => .ninf
  | .pinf, .pinf => .nan
  | .pinf, .ninf => .pinf
  | .ninf, .pinf => .ninf
  | .ninf, .ninf => .pinf

/-- IEEE multiplication on `PVal` (0 * inf = NaN). -/
def PVal.mul : PVal → PVal → PVal
  | .nan, _ => .nan
  | _, .nan => .nan
  | .fin a, .fin b => .fin (a * b)
  | .fin a, .pinf => if a = 0 then .nan else if 0 < a then .pinf else .ninf
  | .fin a, .ninf => if a = 0 then .nan else if 0 < a then .ninf else .pinf
  | .pinf, .fin b => if b = 0 then .nan else if 0 < b then .pinf else .ninf
  | .ninf, .fin b => if b = 0 then .nan else if 0 < b then .ninf else .pinf
  | .pinf, .pinf => .pinf
  | .pinf, .ninf => .ninf
  | .ninf, .pinf => .ninf
  | .ninf, .ninf => .pinf

/-- IEEE division on `PVal`: division of a nonzero finite value by (positive)
zero gives a signed infinity, 0/0 and inf/inf give NaN (numpy semantics for
`a / 0.0`). -/
def PVal.div : PVal → PVal → PVal
  | .nan, _ => .nan
  | _, .nan => .nan
  | .fin a, .fin b =>
      if b = 0 then (if a = 0 then .nan else if 0 < a then .pinf else .ninf)
      else .fin (a / b)
  | .fin _, .pinf => .fin 0
  | .fin _, .ninf => .fin 0
  | .pinf, .fin b => if 0 ≤ b then .pinf else .ninf
  | .ninf, .fin b => if 0 ≤ b then .ninf else .pinf
  | .pinf, .pinf => .nan
  | .pinf, .ninf => .nan
  | .ninf, .pinf => .nan
  | .ninf, .ninf => .nan

/-- Round to integer, ties to even (numpy's rounding mode). -/
def roundHalfEven (q : ℚ) : ℤ :=
  let f := ⌊q⌋
  let r := q - (f : ℚ)
  if r < 1/2 then f else if 1/2 < r then f + 1 else if f % 2 = 0 then f else f + 1

/-- `Series.round(1)` on a finite value: one decimal place, ties to even. -/
def round1np (q : ℚ) : ℚ := (roundHalfEven (q * 10) : ℚ) / 10

/-- Round to integer, ties away from zero (PostgreSQL `ROUND(numeric)`). -/
def roundHalfAway (q : ℚ) : ℤ :=
  if 0 ≤ q then ⌊q + 1/2⌋ else -⌊(1/2) - q⌋

/-- SQL `ROUND(x::numeric, 1)`: one decimal place, ties away from zero. -/
def round1sql (q : ℚ) : ℚ := (roundHalfAway (q * 10) : ℚ) / 10

/-- `.round(1)` lifted to `PVal`: infinities and NaN are unchanged. -/
def PVal.round1 : PVal → PVal
  | .fin q => .fin (round1np q)
  | v => v

/-- A missing cell enters float arithmetic as NaN (pandas alignment). -/
def ofOpt : Option ℚ → PVal
  | some q => .fin q
  | none => .nan

instance {ε α : Type} [DecidableEq ε] [DecidableEq α] : DecidableEq (Except ε α) := fun x y =>
  match x, y with
  | .error e, .error f =>
      if h : e = f then .isTrue (by rw [h])
      else .isFalse (by intro hc; cases hc; exact h rfl)
  | .error _, .ok _ => .isFalse (by intro hc; cases hc)
  | .ok _, .error _ => .isFalse (by intro hc; cases hc)
  | .ok a, .ok b =>
      if h : a = b then .isTrue (by rw [h])
      else .isFalse (by intro hc; cases hc; exact h rfl)

/-- First-match association lookup (the semantics of an indexed lookup into
a keyed series / of a SQL join on a key). -/
def alookup {α : Type} {β : Type} [DecidableEq α] (k : α) : List (α × β) → Option β
  | [] => none
  | p :: t => if p.1 = k then some p.2 else alookup k t

/-- Insert into a strictly ascending list, keeping it strictly ascending
(an element already present is not duplicated).  The order is passed as a
boolean comparator so that concrete instances evaluate in the kernel. -/
def sinsertBy {α : Type} (blt : α → α → Bool) (a : α) : List α → List α
  | [] => [a]
  | b :: t => if blt a b then a :: b :: t else if blt b a then b :: sinsertBy blt a t else b :: t

/-- Sorted deduplicating sort: the ascending unique keys of an index, as a
pandas pivot/union produces them. -/
def ssortBy {α : Type} (blt : α → α → Bool) (l : List α) : List α := l.foldr (sinsertBy blt) []

/-- Kernel-evaluable strict order on year keys. -/
def intLtB (a b : ℤ) : Bool := decide (a < b)

/-- Kernel-evaluable lexicographic strict order on region names, agreeing
with the linear order on `String`. -/
def strLtB (a b : String) : Bool := decide (a.toList < b.toList)

/-- Ascending deduplicated year index. -/
def ssortInt (l : List ℤ) : List ℤ := ssortBy intLtB l

/-- Ascending deduplicated region column index. -/
def ssortStr (l : List String) : List String := ssortBy strLtB l

/-- One long-format row of `get_regional_prices`: (year, region, median_price). -/
structure Obs where
  year : ℤ
  region : String
  median_price : ℚ
deriving DecidableEq, Repr

/-- The wide year-by-region matrix produced by
`df_prices.pivot(index='year', columns='region', values='median_price')`:
a year index, a region column index, and one row of cells per year
(`rows.length = years.length`, each row of length `regions.length`). -/
structure Pivot where
  years : List ℤ
  regions : List String
  rows : List (List PVal)
deriving DecidableEq, Repr

/-- Cell access by (year, region) label; a label absent from the index reads
as NaN, matching pandas alignment semantics. -/
def Pivot.cellAt (p : Pivot) (y : ℤ) (r : String) : PVal :=
  match alookup y (p.years.zip p.rows) with
  | none => .nan
  | some row => (alookup r (p.regions.zip row)).getD .nan

/-- `DataFrame.pivot(index='year', columns='region', values='median_price')`
(`Home.py` line 33): raises `ValueError` on a duplicate (year, region) pair,
otherwise produces the wide matrix with year index and region columns both
sorted ascending, absent combinations filled with NaN. -/
def pivot (obs : List Obs) : Except String Pivot :=
  if (obs.map fun o => (o.year, o.region)).Nodup then
    .ok { years := ssortInt (obs.map Obs.year)
          regions := ssortStr (obs.map Obs.region)
          rows := (ssortInt (obs.map Obs.year)).map fun y =>
                    (ssortStr (obs.map Obs.region)).map fun r =>
                      ofOpt (alookup r ((obs.filter (fun o => o.year = y)).map
                        fun o => (o.region, o.median_price))) }
  else .error "ValueError: Index contains duplicate entries, cannot reshape"

/-- `df_pivot.mul(series, axis=0)` (`Home.py` lines 37-41): pandas aligns on
the union of the year indices; a year present on only one side multiplies a
NaN, so its cells are all NaN.  Columns are unchanged.  No error is raised
for unmatched years. -/
def mulAxis0 (p : Pivot) (adj : List (ℤ × ℚ)) : Pivot :=
  let uY := ssortInt (p.years ++ adj.map fun a => a.1)
  { years := uY
    regions := p.regions
    rows := uY.map fun y => p.regions.map fun r =>
      PVal.mul (p.cellAt y r) (ofOpt (alookup y adj)) }

/-- `df_pivot.apply(lambda x: x / x.iloc[0])` (`Home.py` line 44): every
column is divided elementwise by its entry in the FIRST row of the matrix
(the first year of the sorted index), via IEEE division: a zero base yields
signed infinities, a NaN base yields NaN.  No error is raised. -/
def indexFirst (p : Pivot) : Pivot :=
  match p.rows with
  | [] => p
  | r0 :: _ => { p with rows := p.rows.map fun row => List.zipWith PVal.div row r0 }

/-- The economic data dict loaded by `load_economic_data` in `Home.py`:
CPI and RPI adjustment-factor series and the GBP/USD rate series, each
keyed by year. -/
structure EconData where
  cpi : List (ℤ × ℚ)
  rpi : List (ℤ × ℚ)
  fx : List (ℤ × ℚ)
deriving DecidableEq, Repr

/-- `process_price_data` (`Home.py` lines 31-46): pivot, then optionally
scale rows by the selected economic series (CPI / RPI / FX), then optionally
index every column to the first row. -/
def process_price_data (df_prices : List Obs) (econ : Option EconData)
    (analysis_type : String) (index_to_first_year : Bool) : Except String Pivot :=
  match pivot df_prices with
  | .error e => .error e
  | .ok p0 =>
    let p1 := match econ with
      | some ed =>
        if analysis_type = "Nominal" then p0
        else if analysis_type = "Real (CPI Adjusted)" then mulAxis0 p0 ed.cpi
        else if analysis_type = "Real (RPI Adjusted)" then mulAxis0 p0 ed.rpi
        else if analysis_type = "USD (Nominal)" then mulAxis0 p0 ed.fx
        else p0
      | none => p0
    .ok (if index_to_first_year then indexFirst p1 else p1)

/-- One output row of `compare_monthly_releases` (`database.py` lines
281-294): month, current release count, COALESCEd previous release count,
their difference, and the rounded percentage change (SQL `NULL` is `none`). -/
structure MonthlyRow where
  month : ℤ
  current_count : ℤ
  previous_count : ℤ
  count_difference : ℤ
  percentage_change : Option ℚ
deriving DecidableEq, Repr

/-- The SELECT of `compare_monthly_releases` (`database.py` lines 260-295):
a LEFT JOIN from the current release's per-month counts to the previous
release's, `COALESCE(p.previous_count, 0)` for the difference, and a
percentage `ROUND(((c - p)::float / p * 100)::numeric, 1)` that is `NULL`
unless `p.previous_count > 0`.  Months present only in the previous release
produce no row (LEFT JOIN keeps only current-side months). -/
def compare_monthly_releases (cur prev : List (ℤ × ℤ)) : List MonthlyRow :=
  cur.map fun mc =>
    let p := alookup mc.1 prev
    { month := mc.1
      current_count := mc.2
      previous_count := p.getD 0
      count_difference := mc.2 - p.getD 0
      percentage_change :=
        match p with
        | some pv =>
            if 0 < pv then some (round1sql (((mc.2 - pv : ℤ) : ℚ) / (pv : ℚ) * 100)) else none
        | none => none }

/-- One cell of the year-over-year computation of
`pages/2_Transaction_Volumes.py` lines 201-202:
`((pivot[cur] - pivot[prev]) / pivot[prev] * 100).round(1)` in pandas float
arithmetic, where a price band absent from a year's column is NaN. -/
def yoy_change_cell (cur prev : Option ℚ) : PVal :=
  PVal.round1 (PVal.mul (PVal.div (PVal.sub (ofOpt cur) (ofOpt prev)) (ofOpt prev)) (.fin 100))

/-- Number of elements of Python's `range(0, stop, step)` (`step ≠ 0`). -/
def pyRangeLen (stop step : ℤ) : ℕ :=
  if 0 < step then (stop.toNat + (step.toNat - 1)) / step.toNat
  else ((-stop).toNat + ((-step).toNat - 1)) / (-step).toNat

/-- Python's `range(0, stop, step)` as a list: `none` models the
`ValueError` raised by `range` when `step = 0`; for negative `step` the
range descends.  Element `k` is `k * step`. -/
def pyRange0 (stop step : ℤ) : Option (List ℤ) :=
  if step = 0 then none
  else some ((List.range (pyRangeLen stop step)).map fun k : ℕ => (k : ℤ) * step)

/-- Fractional digits of `f / 1000` (for `f < 1000`): up to three decimal
digits with trailing zeros stripped, at least one digit kept. -/
def fracStr (f : ℕ) : String :=
  if f % 10 ≠ 0 then toString (f / 100) ++ toString (f / 10 % 10) ++ toString (f % 10)
  else if f % 100 ≠ 0 then toString (f / 100) ++ toString (f / 10 % 10)
  else toString (f / 100)

/-- Decimal rendering of `x / 1000` for `x ≥ 1000` as Python's
`f"{x/1000}"` prints it: integer part, a dot, and the fractional digits with
trailing zeros removed but at least one digit kept (`2000 ↦ "2.0"`,
`1500 ↦ "1.5"`, `1250 ↦ "1.25"`).  For the magnitudes this dashboard can
produce, `x/1000` has at most three decimal digits, and the shortest
round-tripping representation of such a float is exactly this decimal
string. -/
def mRepr (x : ℤ) : String :=
  toString (x.toNat / 1000) ++ "." ++ fracStr (x.toNat % 1000)

/-- The `bound` lambda of `volume_by_price` (`database.py` line 320):
`f"{x}K" if x < 1000 else f"{x/1000}M"`. -/
def bound (x : ℤ) : String :=
  if x < 1000 then toString x ++ "K" else mRepr x ++ "M"

/-- The price-band CASE expression built by `volume_by_price`
(`database.py` lines 319-322): one `WHEN price_gbp <= (j+interval)*1000`
clause per element `j` of `range(0, price_limit, interval)` (in order),
with its label, plus the `ELSE 'Over ...'` label. -/
structure BandSpec where
  uppers : List ℤ
  labels : List String
  overLabel : String
deriving DecidableEq, Repr

/-- Band construction of `volume_by_price` (`database.py` lines 319-322).
`range(0, price_limit, 0)` raises `ValueError`; an empty range makes
`price_range[-1]` raise `IndexError`; otherwise the WHEN clauses, their
labels and the ELSE label are produced.  No parameter validation happens
before these two accidental failure modes. -/
def volume_bands (interval price_limit : ℤ) : Except String BandSpec :=
  match pyRange0 price_limit interval with
  | none => .error "ValueError: range arg 3 must not be zero"
  | some pr =>
      if h : pr = [] then .error "IndexError: range object index out of range"
      else
        .ok { uppers := pr.map fun j => (j + interval) * 1000
              labels := pr.map fun j => bound j ++ "-" ++ bound (j + interval)
              overLabel := "Over " ++ bound (pr.getLast h + interval) }

/-- Whether `volume_by_price` gets past its band-construction lines without
raising. -/
def bandsOk (interval price_limit : ℤ) : Bool :=
  match volume_bands interval price_limit with
  | .ok _ => true
  | .error _ => false

/-- First-match index of a SQL `CASE WHEN p <= u_0 ... WHEN p <= u_m ELSE`
expression: the index of the first listed upper bound that is `≥ p`, or the
list's length (the ELSE branch) when none is. -/
def matchIdx (p : ℚ) : List ℤ → ℕ
  | [] => 0
  | u :: us => if p ≤ (u : ℚ) then 0 else matchIdx p us + 1

/-- The band index `volume_by_price`'s CASE expression assigns to a price:
an index into `labels`, or `labels.length` for the `Over` band. -/
def classifyIdx (spec : BandSpec) (p : ℚ) : ℕ := matchIdx p spec.uppers

/-- Factor computation shared by the CPI and RPI paths
(`fred_integration.py` lines 107 and 176): `1 / (series / base)`. -/
def adjustment_factors (series : List (ℤ × ℚ)) (base : ℚ) : List (ℤ × ℚ) :=
  series.map fun p => (p.1, 1 / (p.2 / base))

/-- `get_uk_cpi` (`fred_integration.py` lines 84-109), applied to the
already-fetched annual CPI series: choose the base value (`iloc[-1]` when no
base year is given, else the value at the base year, raising when absent),
then `1 / (cpi_data / base_cpi)`. -/
def get_uk_cpi (cpi_data : List (ℤ × ℚ)) (base_year : Option ℤ) : Except String (List (ℤ × ℚ)) :=
  match base_year with
  | none =>
      match cpi_data.getLast? with
      | some pl => .ok (adjustment_factors cpi_data pl.2)
      | none => .error "IndexError: single positional indexer is out-of-bounds"
  | some b =>
      match alookup b cpi_data with
      | some v => .ok (adjustment_factors cpi_data v)
      | none => .error "ValueError: Base year not found in CPI data"

/-- `get_uk_rpi` (`fred_integration.py` lines 123-185) from the point where
the cleaned annual RPI series exists (the download and CSV cleaning are the
external collaborator): empty-range check, base selection, then the same
`1 / (rpi_data / base_rpi)` formula as the CPI path. -/
def get_uk_rpi_factors (rpi_data : List (ℤ × ℚ)) (base_year : Option ℤ) :
    Except String (List (ℤ × ℚ)) :=
  if rpi_data = [] then .error "ValueError: No RPI data found for year range"
  else
    match base_year with
    | none =>
        match rpi_data.getLast? with
        | some pl => .ok (adjustment_factors rpi_data pl.2)
        | none => .error "IndexError: single positional indexer is out-of-bounds"
    | some b =>
        match alookup b rpi_data with
        | some v => .ok (adjustment_factors rpi_data v)
        | none => .error "ValueError: Base year not found in RPI data"

/-- The order in which distinct region names are first encountered in the
request/result rows (the column order the claim expects the pivot to
preserve). -/
def firstOccur : List String → List String
  | [] => []
  | a :: t => a :: (firstOccur t).filter (fun r => r ≠ a)

theorem alookup_mem {α β : Type} [DecidableEq α] (k : α) (v : β) :
    ∀ l : List (α × β), alookup k l = some v → (k, v) ∈ l := by
  intro l
  induction l with
  | nil => intro h; simp [alookup] at h
  | cons p t ih =>
    intro h
    rw [alookup] at h
    by_cases hp : p.1 = k
    · rw [if_pos hp] at h
      obtain ⟨p1, p2⟩ := p
      obtain rfl : p2 = v := by injection h
      obtain rfl : p1 = k := hp
      exact List.mem_cons_self _ _
    · rw [if_neg hp] at h
      exact List.mem_cons_of_mem _ (ih h)

theorem alookup_map_snd {α β : Type} [DecidableEq α] (k : α) (v : β) (g : β → β) :
    ∀ l : List (α × β), alookup k l = some v →
      alookup k (l.map fun p => (p.1, g p.2)) = some (g v) := by
  intro l
  induction l with
  | nil => intro h; simp [alookup] at h
  | cons p t ih =>
    intro h
    rw [alookup] at h
    rw [List.map_cons, alookup]
    by_cases hp : p.1 = k
    · rw [if_pos hp] at h
      cases h
      simp [hp]
    · rw [if_neg hp] at h
      simpa [hp] using ih h

theorem alookup_zip_map {α β : Type} [DecidableEq α] (f : α → β) (y : α) :
    ∀ l : List α, y ∈ l → alookup y (l.zip (l.map f)) = some (f y) := by
  intro l
  induction l with
  | nil => intro h; cases h
  | cons a t ih =>
    intro h
    rw [List.map_cons, List.zip_cons_cons, alookup]
    by_cases ha : a = y
    · subst ha; simp
    · rcases List.mem_cons.mp h with rfl | ht
      · exact absurd rfl ha
      · simpa [ha] using ih ht

theorem alookup_zip_eq_none {α β : Type} [DecidableEq α] (y : α) :
    ∀ (l : List α) (m : List β), y ∉ l → alookup y (l.zip m) = none := by
  intro l
  induction l with
  | nil => intro m _; simp [alookup]
  | cons a t ih =>
    intro m h
    cases m with
    | nil => simp [alookup]
    | cons b mt =>
      rw [List.zip_cons_cons, alookup]
      have ha : a ≠ y := fun hc => h (hc ▸ List.mem_cons_self a t)
      rw [if_neg ha]
      exact ih mt (fun hc => h (List.mem_cons_of_mem _ hc))

theorem mem_sinsertBy {α : Type} [LinearOrder α] (blt : α → α → Bool)
    (hblt : ∀ x y, blt x y = true ↔ x < y) (x a : α) (l : List α) :
    x ∈ sinsertBy blt a l ↔ x = a ∨ x ∈ l := by
  induction l with
  | nil => simp [sinsertBy]
  | cons b t ih =>
    by_cases h1 : blt a b = true
    · rw [sinsertBy, if_pos h1]
      simp [List.mem_cons]
    · by_cases h2 : blt b a = true
      · rw [sinsertBy, if_neg h1, if_pos h2]
        simp only [List.mem_cons, ih]
        tauto
      · have hab : a = b := by
          have na : ¬ a < b := fun hc => h1 ((hblt a b).mpr hc)
          have nb : ¬ b < a := fun hc => h2 ((hblt b a).mpr hc)
          exact le_antisymm (not_lt.mp nb) (not_lt.mp na)
        rw [sinsertBy, if_neg h1, if_neg h2]
        subst hab
        simp [List.mem_cons]

theorem pairwise_sinsertBy {α : Type} [LinearOrder α] (blt : α → α → Bool)
    (hblt : ∀ x y, blt x y = true ↔ x < y) (a : α) (l : List α)
    (h : List.Pairwise (· < ·) l) : List.Pairwise (· < ·) (sinsertBy blt a l) := by
  induction l with
  | nil => simp [sinsertBy]
  | cons b t ih =>
    rw [List.pairwise_cons] at h
    obtain ⟨hb, ht⟩ := h
    by_cases h1 : blt a b = true
    · rw [sinsertBy, if_pos h1, List.pairwise_cons]
      have hab : a < b := (hblt a b).mp h1
      refine ⟨?_, List.pairwise_cons.mpr ⟨hb, ht⟩⟩
      intro x hx
      rcases List.mem_cons.mp hx with rfl | hx2
      · exact hab
      · exact lt_trans hab (hb x hx2)
    · by_cases h2 : blt b a = true
      · rw [sinsertBy, if_neg h1, if_pos h2, List.pairwise_cons]
        refine ⟨?_, ih ht⟩
        intro x hx
        rcases (mem_sinsertBy blt hblt x a t).mp hx with rfl | hx2
        · exact (hblt b x).mp h2
        · exact hb x hx2
      · rw [sinsertBy, if_neg h1, if_neg h2, List.pairwise_cons]
        exact ⟨hb, ht⟩

theorem pairwise_ssortBy {α : Type} [LinearOrder α] (blt : α → α → Bool)
    (hblt : ∀ x y, blt x y = true ↔ x < y) (l : List α) :
    List.Pairwise (· < ·) (ssortBy blt l) := by
  induction l with
  | nil => simp [ssortBy]
  | cons a t ih => exact pairwise_sinsertBy blt hblt a (ssortBy blt t) ih

theorem mem_ssortBy {α : Type} [LinearOrder α] (blt : α → α → Bool)
    (hblt : ∀ x y, blt x y = true ↔ x < y) (x : α) (l : List α) :
    x ∈ ssortBy blt l ↔ x ∈ l := by
  induction l with
  | nil => simp [ssortBy]
  | cons a t ih =>
    rw [show ssortBy blt (a :: t) = sinsertBy blt a (ssortBy blt t) from rfl,
      mem_sinsertBy blt hblt, ih]
    simp [List.mem_cons]

theorem intLtB_iff (x y : ℤ) : intLtB x y = true ↔ x < y := by
  simp [intLtB]

theorem strLtB_iff (x y : String) : strLtB x y = true ↔ x < y := by
  rw [String.lt_iff_toList_lt]
  simp [strLtB]

example : pivot [⟨2020, "A", 0⟩, ⟨2021, "A", 100⟩]
    = .ok ⟨[2020, 2021], ["A"], [[.fin 0], [.fin 100]]⟩ := by decide

example : process_price_data [⟨2020, "A", 0⟩, ⟨2021, "A", 100⟩] none "Nominal" true
    = .ok ⟨[2020, 2021], ["A"], [[.nan], [.pinf]]⟩ := by decide

example : pyRange0 300 100 = some [0, 100, 200] := by decide

example : pyRange0 50 100 = some [0] := by decide

example : pyRange0 0 100 = some [] := by decide

example : pyRange0 (-300) (-100) = some [0, -100, -200] := by decide

example : bound 0 = "0K" := by decide

example : bound 300 = "300K" := by decide

example : bound 1500 = "1.5M" := by decide

example : bound 2000 = "2.0M" := by decide

example : volume_bands 100 300 = .ok
    ⟨[100000, 200000, 300000],
     ["0K-100K", "100K-200K", "200K-300K"], "Over 300K"⟩ := by decide

example : yoy_change_cell (some 50) (some 0) = PVal.pinf := by
  norm_num [yoy_change_cell, ofOpt, PVal.sub, PVal.div, PVal.mul, PVal.round1]

example : yoy_change_cell none (some 30) = PVal.nan := by
  norm_num [yoy_change_cell, ofOpt, PVal.sub, PVal.div, PVal.mul, PVal.round1]

example : compare_monthly_releases [(1, 5)] [(1, 4), (2, 10)]
    = [⟨1, 5, 4, 1, some 25⟩] := by
  norm_num [compare_monthly_releases, alookup, round1sql, roundHalfAway]

theorem matchIdx_range_eq_iff :
    ∀ (n : ℕ) (g : ℕ → ℤ) (p : ℚ) (k : ℕ), k < n →
      (matchIdx p ((List.range n).map fun j => g j) = k ↔
        (p ≤ ((g k : ℤ) : ℚ) ∧ ∀ j, j < k → (((g j : ℤ) : ℚ) < p))) := by
  intro n
  induction n with
  | zero => intro g p k hk; exact absurd hk (Nat.not_lt_zero k)
  | succ n ih =>
    intro g p k hk
    rw [List.range_succ_eq_map, List.map_cons, List.map_map, matchIdx]
    have hcomp : (fun j => g j) ∘ Nat.succ = fun j => g (j + 1) := by
      funext j
      simp [Nat.succ_eq_add_one]
    rw [hcomp]
    by_cases h0 : p ≤ ((g 0 : ℤ) : ℚ)
    · rw [if_pos h0]
      cases k with
      | zero => simp [h0]
      | succ m =>
        constructor
        · intro h; exact absurd h (by omega)
        · rintro ⟨_, hall⟩
          exact absurd (hall 0 (Nat.succ_pos m)) (not_lt.mpr h0)
    · rw [if_neg h0]
      have hg0 : ((g 0 : ℤ) : ℚ) < p := lt_of_not_le h0
      cases k with
      | zero =>
        constructor
        · intro h; exact absurd h (by omega)
        · rintro ⟨hle, _⟩; exact absurd hle h0
      | succ m =>
        have hm : m < n := Nat.succ_lt_succ_iff.mp hk
        have hih := ih (fun j => g (j + 1)) p m hm
        constructor
        · intro h
          have h2 : matchIdx p ((List.range n).map fun j => g (j + 1)) = m := by omega
          obtain ⟨ha, hb⟩ := hih.mp h2
          refine ⟨ha, ?_⟩
          intro j hj
          cases j with
          | zero => exact hg0
          | succ jj => exact hb jj (by omega)
        · rintro ⟨ha, hb⟩
          have h2 : matchIdx p ((List.range n).map fun j => g (j + 1)) = m :=
            hih.mpr ⟨ha, fun j hj => hb (j + 1) (by omega)⟩
          omega

theorem matchIdx_range_eq_len_iff :
    ∀ (n : ℕ) (g : ℕ → ℤ) (p : ℚ),
      (matchIdx p ((List.range n).map fun j => g j) = n ↔
        ∀ j, j < n → (((g j : ℤ) : ℚ) < p)) := by
  intro n
  induction n with
  | zero => intro g p; simp [matchIdx]
  | succ n ih =>
    intro g p
    rw [List.range_succ_eq_map, List.map_cons, List.map_map, matchIdx]
    have hcomp : (fun j => g j) ∘ Nat.succ = fun j => g (j + 1) := by
      funext j
      simp [Nat.succ_eq_add_one]
    rw [hcomp]
    by_cases h0 : p ≤ ((g 0 : ℤ) : ℚ)
    · rw [if_pos h0]
      constructor
      · intro h; exact absurd h (by omega)
      · intro hall
        exact absurd (hall 0 (Nat.succ_pos n)) (not_lt.mpr h0)
    · rw [if_neg h0]
      have hg0 : ((g 0 : ℤ) : ℚ) < p := lt_of_not_le h0
      have hih := ih (fun j => g (j + 1)) p
      constructor
      · intro h
        have h2 : matchIdx p ((List.range n).map fun j => g (j + 1)) = n := by omega
        intro j hj
        cases j with
        | zero => exact hg0
        | succ jj => exact hih.mp h2 jj (by omega)
      · intro hall
        have h2 : matchIdx p ((List.range n).map fun j => g (j + 1)) = n :=
          hih.mpr (fun j hj => hall (j + 1) (by omega))
        omega

theorem pyRangeLen_pos_iff (L i : ℤ) (hi : i ≠ 0) :
    0 < pyRangeLen L i ↔ ((0 < i ∧ 0 < L) ∨ (i < 0 ∧ L < 0)) := by
  unfold pyRangeLen
  by_cases hp : 0 < i
  · rw [if_pos hp]
    have hb : 0 < i.toNat := by omega
    constructor
    · intro h
      left
      refine ⟨hp, ?_⟩
      by_contra hL
      push_neg at hL
      have hz : L.toNat = 0 := by omega
      rw [hz] at h
      have : (0 + (i.toNat - 1)) / i.toNat = 0 := Nat.div_eq_of_lt (by omega)
      omega
    · rintro (⟨_, hL⟩ | ⟨hneg, _⟩)
      · exact Nat.div_pos (by omega) hb
      · omega
  · rw [if_neg hp]
    have hneg : i < 0 := by omega
    have hb : 0 < (-i).toNat := by omega
    constructor
    · intro h
      right
      refine ⟨hneg, ?_⟩
      by_contra hL
      push_neg at hL
      have hz : (-L).toNat = 0 := by omega
      rw [hz] at h
      have : (0 + ((-i).toNat - 1)) / (-i).toNat = 0 := Nat.div_eq_of_lt (by omega)
      omega
    · rintro (⟨hpos, _⟩ | ⟨_, hL⟩)
      · omega
      · exact Nat.div_pos (by omega) hb

/-- C4: for any economic series with strictly positive values and any base
year present in it, the factor computation returns
`factor[y] = baseValue / series[y]` for every year (the code's
`1 / (series / base)` equals `base / series[y]`), the factor at the base
year is exactly 1, and the identical formula is applied by the CPI path and
the RPI path. -/
theorem C4_confirmed (s : List (ℤ × ℚ)) (b : ℤ) (bv : ℚ)
    (hpos : ∀ q ∈ s, 0 < q.2) (hb : alookup b s = some bv) :
    get_uk_cpi s (some b) = .ok (s.map fun q => (q.1, bv / q.2)) ∧
    get_uk_rpi_factors s (some b) = .ok (s.map fun q => (q.1, bv / q.2)) ∧
    alookup b (s.map fun q => (q.1, bv / q.2)) = some 1 := by
  have hsne : s ≠ [] := by
    intro hnil
    rw [hnil] at hb
    simp [alookup] at hb
  have hfac : adjustment_factors s bv = s.map fun q => (q.1, bv / q.2) := by
    unfold adjustment_factors
    apply List.map_congr_left
    intro q _
    rw [one_div, inv_div]
  have hbv : 0 < bv := hpos (b, bv) (alookup_mem b bv s hb)
  refine ⟨?_, ?_, ?_⟩
  · simp [get_uk_cpi, hb, hfac]
  · simp [get_uk_rpi_factors, hsne, hb, hfac]
  · have h2 := alookup_map_snd b bv (fun v => bv / v) s hb
    have h3 : bv / bv = 1 := div_self (ne_of_gt hbv)
    simpa [h3] using h2

/-- Witness for C4 at the spec's own scenario: CPI series
{2020: 100, 2021: 110, 2022: 121} with base year 2022. -/
theorem C4_witness :
    get_uk_cpi [(2020, 100), (2021, 110), (2022, 121)] (some 2022)
        = .ok ([((2020 : ℤ), (100 : ℚ)), (2021, 110), (2022, 121)].map fun q => (q.1, (121 : ℚ) / q.2)) ∧
    get_uk_rpi_factors [(2020, 100), (2021, 110), (2022, 121)] (some 2022)
        = .ok ([((2020 : ℤ), (100 : ℚ)), (2021, 110), (2022, 121)].map fun q => (q.1, (121 : ℚ) / q.2)) ∧
    alookup 2022 ([((2020 : ℤ), (100 : ℚ)), (2021, 110), (2022, 121)].map fun q => (q.1, (121 : ℚ) / q.2))
        = some 1 :=
  C4_confirmed [(2020, 100), (2021, 110), (2022, 121)] 2022 121
    (by norm_num) (by norm_num [alookup])

/-- C7 counterexample: the labels generated for `interval=100, limit=300`
are NOT `["0-100K", "100K-200K", "200K-300K", "Over 300K"]` — the `bound`
lambda renders the zero boundary as `"0K"`, so the first label is
`"0K-100K"`. -/
theorem C7_counterexample :
    (volume_bands 100 300).map (fun s => s.labels ++ [s.overLabel])
      ≠ .ok ["0-100K", "100K-200K", "200K-300K", "Over 300K"] := by decide

/-- C7 amended: bands with `interval=100, limit=300` yield exactly the
labels `["0K-100K", "100K-200K", "200K-300K", "Over 300K"]` (the zero bound
renders as `"0K"`, not `"0"`); every magnitude below 1000 renders as
`"{n}K"` and every magnitude at or above 1000 renders as the exact decimal
ratio with an `"M"` suffix, e.g. `1500 ↦ "1.5M"`. -/
theorem C7_amended :
    (volume_bands 100 300).map (fun s => s.labels ++ [s.overLabel])
        = .ok ["0K-100K", "100K-200K", "200K-300K", "Over 300K"] ∧
    (∀ x : ℤ, x < 1000 → bound x = toString x ++ "K") ∧
    (∀ x : ℤ, 1000 ≤ x → bound x = mRepr x ++ "M") ∧
    bound 1500 = "1.5M" := by
  refine ⟨by decide, ?_, ?_, by decide⟩
  · intro x hx
    rw [bound, if_pos hx]
  · intro x hx
    rw [bound, if_neg (not_lt.mpr hx)]

/-- Witness for C7's universally quantified label-formatting parts. -/
theorem C7_witness :
    bound 500 = toString (500 : ℤ) ++ "K" ∧ bound 2500 = mRepr 2500 ++ "M" :=
  ⟨C7_amended.2.1 500 (by decide), C7_amended.2.2.1 2500 (by decide)⟩

/-- C8 counterexample: with `interval=100, limit=50` we have
`limit < interval`, for which the claim demands an `InvalidRangeError`, yet
the band construction succeeds (`range(0, 50, 100) = [0]` is nonempty). -/
theorem C8_counterexample :
    bandsOk 100 50 = true ∧ ¬ ((100 : ℤ) ≤ 50) := by decide

/-- C8 amended: band construction raises no validated `InvalidRangeError`
at all; it gets through exactly when `interval` and `limit` are both
positive (including `limit < interval`) or both negative, and otherwise
fails accidentally (`ValueError` from `range` for `interval = 0`,
`IndexError` from `price_range[-1]` when the range is empty). -/
theorem C8_amended (i L : ℤ) :
    bandsOk i L = true ↔ ((0 < i ∧ 0 < L) ∨ (i < 0 ∧ L < 0)) := by
  by_cases hi0 : i = 0
  · subst hi0
    have hb : bandsOk 0 L = false := rfl
    rw [hb]
    simp only [Bool.false_eq_true, false_iff]
    omega
  · have hpr : pyRange0 L i
        = some ((List.range (pyRangeLen L i)).map fun k : ℕ => (k : ℤ) * i) := by
      rw [pyRange0, if_neg hi0]
    rw [← pyRangeLen_pos_iff L i hi0]
    by_cases hz : pyRangeLen L i = 0
    · have hb : bandsOk i L = false := by
        simp [bandsOk, volume_bands, hpr, hz]
      rw [hb]
      simp [hz]
    · have hpr2 : ((List.range (pyRangeLen L i)).map fun k : ℕ => (k : ℤ) * i) ≠ [] := by
        simp [List.map_eq_nil_iff, List.range_eq_nil, hz]
      have hb : bandsOk i L = true := by
        simp [bandsOk, volume_bands, hpr, hpr2]
      rw [hb]
      simp only [true_iff]
      omega

/-- C3 counterexample: at the year-over-year call site the zero/missing
baseline policy is NOT the null-on-zero policy of the claim.  A group
missing from the current year with previous value 30 yields a NaN
percentage (not null-with-previous-zero: previous is 30 ≠ 0), and a zero
previous with current 50 yields +infinity, which the claim forbids
outright. -/
theorem C3_counterexample :
    yoy_change_cell none (some 30) = PVal.nan ∧ (30 : ℚ) ≠ 0 ∧
    yoy_change_cell (some 50) (some 0) = PVal.pinf := by
  refine ⟨?_, by norm_num, ?_⟩
  · norm_num [yoy_change_cell, ofOpt, PVal.sub, PVal.div, PVal.mul, PVal.round1]
  · norm_num [yoy_change_cell, ofOpt, PVal.sub, PVal.div, PVal.mul, PVal.round1]

/-- C3 amended: the two call sites do not share one policy.  At the
monthly-release site, `percentage_change` is
`ROUND(absoluteDelta / previous * 100, 1)` and is NULL exactly when the
COALESCEd previous count is 0 (given the previous release's grouped counts
are positive, as `COUNT(*)` guarantees).  At the year-over-year site the
percentage is computed in float arithmetic with no null policy: a nonzero
previous gives the rounded ratio, a missing side gives NaN, and a zero
previous would give a signed infinity. -/
theorem C3_amended (cur prev : List (ℤ × ℤ)) (hprev : ∀ q ∈ prev, 0 < q.2) :
    (∀ row ∈ compare_monthly_releases cur prev,
        (row.percentage_change = none ↔ row.previous_count = 0) ∧
        (∀ q : ℚ, row.percentage_change = some q →
          q = round1sql ((row.count_difference : ℚ) / (row.previous_count : ℚ) * 100))) ∧
    (∀ c p : ℚ, p ≠ 0 →
        yoy_change_cell (some c) (some p) = .fin (round1np ((c - p) / p * 100))) ∧
    (∀ p : ℚ, yoy_change_cell none (some p) = .nan) ∧
    (∀ c : ℚ, 0 < c → yoy_change_cell (some c) (some 0) = .pinf) := by
  refine ⟨?_, ?_, ?_, ?_⟩
  · intro row hrow
    rw [compare_monthly_releases, List.mem_map] at hrow
    obtain ⟨mc, _, rfl⟩ := hrow
    rcases hp : alookup mc.1 prev with _ | pv
    · constructor
      · simp [hp]
      · intro q hq
        simp [hp] at hq
    · have hpv : 0 < pv := hprev _ (alookup_mem _ _ _ hp)
      constructor
      · simp [hp, hpv]
        omega
      · intro q hq
        simp [hp, hpv] at hq
        simp [hp, ← hq]
  · intro c p hp0
    simp [yoy_change_cell, ofOpt, PVal.sub, PVal.div, PVal.mul, PVal.round1, hp0]
  · intro p
    simp [yoy_change_cell, ofOpt, PVal.sub, PVal.div, PVal.mul, PVal.round1]
  · intro c hc
    norm_num [yoy_change_cell, ofOpt, PVal.sub, PVal.div, PVal.mul, PVal.round1,
      ne_of_gt hc, hc]

/-- Witness for C3's amended year-over-year formula at current 7,
previous 4. -/
theorem C3_witness :
    yoy_change_cell (some 7) (some 4) = .fin (round1np ((7 - 4) / 4 * 100)) :=
  (C3_amended [] [] (by simp)).2.1 7 4 (by norm_num)

/-- C6 counterexample: month 2 is present in the previous release (count
10) and absent from the current one, yet `compare_monthly_releases` emits
no row for it — the LEFT JOIN from the current side drops it, instead of
emitting a drop-to-zero delta as the claim requires. -/
theorem C6_counterexample :
    (compare_monthly_releases [(1, 5)] [(1, 4), (2, 10)]).map (fun r => r.month) = [1] ∧
    (2 : ℤ) ∈ ([(1, 4), (2, 10)] : List (ℤ × ℤ)).map (fun q => q.1) ∧
    (1 : ℤ) ≠ 2 := by
  refine ⟨?_, by decide, by decide⟩
  decide

/-- C6 amended: the comparator emits one delta per group of the CURRENT
period only (groups present only in the previous period are dropped by the
LEFT JOIN); it is the missing PREVIOUS side that is treated as 0 via
COALESCE, with `absoluteDelta = current - coalesce(previous, 0)`. -/
theorem C6_amended (cur prev : List (ℤ × ℤ)) :
    (compare_monthly_releases cur prev).map (fun r => r.month) = cur.map (fun q => q.1) ∧
    (∀ row ∈ compare_monthly_releases cur prev,
        row.previous_count = (alookup row.month prev).getD 0 ∧
        row.count_difference = row.current_count - row.previous_count) := by
  constructor
  · rw [compare_monthly_releases, List.map_map]
    rfl
  · intro row hrow
    rw [compare_monthly_releases, List.mem_map] at hrow
    obtain ⟨mc, _, rfl⟩ := hrow
    exact ⟨rfl, rfl⟩

/-- Witness for C6 at a current-only month: previous side COALESCEd to 0. -/
theorem C6_witness :
    ((⟨1, 5, 0, 5, none⟩ : MonthlyRow).previous_count
        = (alookup (⟨1, 5, 0, 5, none⟩ : MonthlyRow).month [((2 : ℤ), (3 : ℤ))]).getD 0 ∧
      (⟨1, 5, 0, 5, none⟩ : MonthlyRow).count_difference
        = (⟨1, 5, 0, 5, none⟩ : MonthlyRow).current_count
            - (⟨1, 5, 0, 5, none⟩ : MonthlyRow).previous_count) :=
  (C6_amended [(1, 5)] [(2, 3)]).2 ⟨1, 5, 0, 5, none⟩ (by decide)

/-- C10: any analysis type other than the four known strings leaves the
pivoted matrix unscaled with no error, exactly as for `"Nominal"` — the
`if/elif` chain of `process_price_data` simply falls through. -/
theorem C10_confirmed (rows : List Obs) (e : EconData) (t : String)
    (h1 : t ≠ "Nominal") (h2 : t ≠ "Real (CPI Adjusted)")
    (h3 : t ≠ "Real (RPI Adjusted)") (h4 : t ≠ "USD (Nominal)") :
    process_price_data rows (some e) t false = process_price_data rows none "Nominal" false ∧
    process_price_data rows none "Nominal" false = pivot rows := by
  constructor <;> cases hpv : pivot rows <;>
    simp [process_price_data, hpv, h1, h2, h3, h4]

/-- Witness for C10 with the unknown analysis type `"Median"`. -/
theorem C10_witness :
    process_price_data [⟨2020, "A", 1⟩] (some ⟨[], [], []⟩) "Median" false
        = process_price_data [⟨2020, "A", 1⟩] none "Nominal" false ∧
    process_price_data [⟨2020, "A", 1⟩] none "Nominal" false = pivot [⟨2020, "A", 1⟩] :=
  C10_confirmed [⟨2020, "A", 1⟩] ⟨[], [], []⟩ "Median"
    (by decide) (by decide) (by decide) (by decide)

theorem PVal.nan_mul (v : PVal) : PVal.mul .nan v = .nan := by
  cases v <;> rfl

theorem cellAt_mk (uY : List ℤ) (regs : List String) (g : ℤ → String → PVal)
    (y : ℤ) (r : String) (hy : y ∈ uY) (hr : r ∈ regs) :
    Pivot.cellAt ⟨uY, regs, uY.map fun y2 => regs.map fun r2 => g y2 r2⟩ y r = g y r := by
  have h1 := alookup_zip_map (fun y2 => regs.map fun r2 => g y2 r2) y uY hy
  have h2 := alookup_zip_map (fun r2 => g y r2) r regs hr
  simp only [Pivot.cellAt] at *
  rw [h1]
  simp only [Option.getD_some] at *
  rw [h2]
  rfl

theorem cellAt_not_mem (p : Pivot) (y : ℤ) (r : String) (hy : y ∉ p.years) :
    p.cellAt y r = .nan := by
  unfold Pivot.cellAt
  rw [alookup_zip_eq_none y p.years p.rows hy]

/-- C2 counterexample: indexing a matrix whose column has first-year value
0 does not raise; it silently produces a NaN cell (0/0) and a +infinity
cell (100/0), contradicting both the `IndexingBaseZeroError` and the
"never infinite or NaN" parts of the claim. -/
theorem C2_counterexample :
    process_price_data [⟨2020, "A", 0⟩, ⟨2021, "A", 100⟩] none "Nominal" true
        = .ok ⟨[2020, 2021], ["A"], [[.nan], [.pinf]]⟩ := by decide

/-- C2 amended: with `index_to_first_year` true, every column is divided
elementwise by its entry in the matrix's FIRST row (the first year of the
sorted index, not each column's own first present year), via IEEE float
division: a zero base yields NaN (for a zero numerator) or a signed
infinity, and a missing (NaN) base yields NaN.  No error is ever raised. -/
theorem C2_amended (rows : List Obs) (p : Pivot) (r0 : List PVal) (rest : List (List PVal))
    (hp : pivot rows = .ok p) (hrows : p.rows = r0 :: rest) :
    process_price_data rows none "Nominal" true
        = .ok { p with rows := p.rows.map fun row => List.zipWith PVal.div row r0 } ∧
    (∀ v : ℚ, PVal.div (.fin v) (.fin 0)
        = if v = 0 then PVal.nan else if 0 < v then PVal.pinf else PVal.ninf) ∧
    PVal.div PVal.nan (.fin 0) = PVal.nan ∧
    (∀ v : ℚ, PVal.div (.fin v) PVal.nan = PVal.nan) := by
  refine ⟨?_, ?_, rfl, fun v => rfl⟩
  · simp [process_price_data, hp, indexFirst, hrows]
  · intro v
    simp [PVal.div]

/-- Witness for C2's amended division semantics on a one-cell matrix. -/
theorem C2_witness :
    process_price_data [⟨2020, "A", 2⟩] none "Nominal" true
        = .ok { (⟨[2020], ["A"], [[PVal.fin 2]]⟩ : Pivot) with
                rows := ([[PVal.fin 2]] : List (List PVal)).map
                  fun row => List.zipWith PVal.div row [PVal.fin 2] } :=
  (C2_amended [⟨2020, "A", 2⟩] ⟨[2020], ["A"], [[.fin 2]]⟩ [.fin 2] [] (by decide) rfl).1

/-- C5 counterexample: scaling a 2020-only matrix by an adjustment series
that only has year 2021 raises no `MissingAdjustmentYearError`; pandas
alignment silently produces a NaN cell for 2020 and a new all-NaN row for
2021. -/
theorem C5_counterexample :
    process_price_data [⟨2020, "A", 100⟩] (some ⟨[(2021, 2)], [], []⟩)
        "Real (CPI Adjusted)" false
      = .ok ⟨[2020, 2021], ["A"], [[.nan], [.nan]]⟩ := by decide

/-- C5 amended: the adjustment step is pandas `mul(..., axis=0)`: the year
index becomes the sorted union of both indices; a cell whose year is
matched is multiplied by the adjustment factor; a year absent from the
adjustment multiplies NaN (silently giving NaN cells), and a year present
only in the adjustment appears as an all-NaN row.  No error is raised. -/
theorem C5_amended (rows : List Obs) (e : EconData) (p : Pivot) (adj : List (ℤ × ℚ)) :
    process_price_data rows (some e) "Real (CPI Adjusted)" false
        = Except.map (fun q => mulAxis0 q e.cpi) (pivot rows) ∧
    (mulAxis0 p adj).years = ssortInt (p.years ++ adj.map fun a => a.1) ∧
    (∀ y ∈ (mulAxis0 p adj).years, ∀ r ∈ p.regions, ∀ a : ℚ, alookup y adj = some a →
        (mulAxis0 p adj).cellAt y r = PVal.mul (p.cellAt y r) (.fin a)) ∧
    (∀ y ∈ (mulAxis0 p adj).years, ∀ r ∈ p.regions, alookup y adj = none →
        (mulAxis0 p adj).cellAt y r = PVal.mul (p.cellAt y r) PVal.nan) ∧
    (∀ y : ℤ, y ∉ p.years → ∀ r ∈ p.regions, (mulAxis0 p adj).cellAt y r = PVal.nan) := by
  refine ⟨?_, rfl, ?_, ?_, ?_⟩
  · cases hpv : pivot rows <;>
      simp [process_price_data, hpv, Except.map]
  · intro y hy r hr a ha
    rw [show (mulAxis0 p adj).cellAt y r
        = PVal.mul (p.cellAt y r) (ofOpt (alookup y adj)) from
      cellAt_mk _ _ _ y r hy hr]
    rw [ha]
    rfl
  · intro y hy r hr ha
    rw [show (mulAxis0 p adj).cellAt y r
        = PVal.mul (p.cellAt y r) (ofOpt (alookup y adj)) from
      cellAt_mk _ _ _ y r hy hr]
    rw [ha]
    rfl
  · intro y hy r hr
    by_cases hyu : y ∈ (mulAxis0 p adj).years
    · rw [show (mulAxis0 p adj).cellAt y r
          = PVal.mul (p.cellAt y r) (ofOpt (alookup y adj)) from
        cellAt_mk _ _ _ y r hyu hr]
      rw [cellAt_not_mem p y r hy]
      exact PVal.nan_mul _
    · exact cellAt_not_mem _ y r hyu

/-- Witness for C5's amended matched-year multiplication. -/
theorem C5_witness :
    (mulAxis0 ⟨[2020], ["A"], [[PVal.fin 3]]⟩ [(2020, 2)]).cellAt 2020 "A"
        = PVal.mul ((⟨[2020], ["A"], [[PVal.fin 3]]⟩ : Pivot).cellAt 2020 "A") (.fin 2) :=
  (C5_amended [] ⟨[], [], []⟩ ⟨[2020], ["A"], [[PVal.fin 3]]⟩ [(2020, 2)]).2.2.1
    2020 (by decide) "A" (by decide) 2 (by decide)

/-- C9 counterexample: for rows whose regions are first encountered in the
order ["B", "A"], the pivot's columns come out re-sorted as ["A", "B"],
not in first-encountered (request) order. -/
theorem C9_counterexample :
    (pivot [⟨2020, "B", 1⟩, ⟨2021, "A", 2⟩, ⟨2021, "B", 3⟩]).map (fun q => q.regions)
        = .ok ["A", "B"] ∧
    firstOccur ([⟨2020, "B", 1⟩, ⟨2021, "A", 2⟩, ⟨2021, "B", 3⟩].map Obs.region)
        = ["B", "A"] ∧
    (["A", "B"] : List String) ≠ ["B", "A"] := by decide

/-- C9 amended: the pivot's year rows are strictly ascending, and its
columns are strictly ascending in the lexicographic order of the region
names — i.e. re-sorted by the pivot, not kept in request order; the index
and column sets are exactly the years and regions present in the rows. -/
theorem C9_amended (rows : List Obs) (p : Pivot) (hp : pivot rows = .ok p) :
    List.Pairwise (· < ·) p.years ∧ List.Pairwise (· < ·) p.regions ∧
    (∀ y : ℤ, y ∈ p.years ↔ y ∈ rows.map Obs.year) ∧
    (∀ r : String, r ∈ p.regions ↔ r ∈ rows.map Obs.region) := by
  have hno : (rows.map fun o => (o.year, o.region)).Nodup := by
    by_contra hc
    simp [pivot, hc] at hp
  rw [pivot, if_pos hno] at hp
  injection hp with hp2
  subst hp2
  refine ⟨pairwise_ssortBy intLtB intLtB_iff _, pairwise_ssortBy strLtB strLtB_iff _, ?_, ?_⟩
  · intro y
    exact mem_ssortBy intLtB intLtB_iff y _
  · intro r
    exact mem_ssortBy strLtB strLtB_iff r _

/-- Witness for C9 on a one-row input. -/
theorem C9_witness :
    List.Pairwise (· < ·) (⟨[2020], ["A"], [[PVal.fin 1]]⟩ : Pivot).years ∧
    List.Pairwise (· < ·) (⟨[2020], ["A"], [[PVal.fin 1]]⟩ : Pivot).regions :=
  ⟨(C9_amended [⟨2020, "A", 1⟩] ⟨[2020], ["A"], [[.fin 1]]⟩ (by decide)).1,
   (C9_amended [⟨2020, "A", 1⟩] ⟨[2020], ["A"], [[.fin 1]]⟩ (by decide)).2.1⟩

/-- C1 counterexample: with `interval=100, limit=300`, the claim puts the
price 300000 (= limit × 1000) in the final unbounded band (index 3, the
number of finite bands), but the CASE expression's `price_gbp <= 300000`
clause files it in the last finite band (index 2); likewise 100000 lands in
band 0, not in the claimed half-open `[100000, 200000)` band 1. -/
theorem C1_counterexample :
    (volume_bands 100 300).map (fun s => classifyIdx s 300000) = .ok 2 ∧
    (volume_bands 100 300).map (fun s => s.uppers.length) = .ok 3 ∧
    (300000 : ℚ) ≤ 300 * 1000 ∧
    (volume_bands 100 300).map (fun s => classifyIdx s 100000) = .ok 0 ∧
    ¬ ((100000 : ℚ) < 100000) := by
  refine ⟨by decide, by decide, by norm_num, by decide, by norm_num⟩

/-- C1 amended: for `interval > 0` and `limit ≥ interval` the construction
succeeds and partitions the price axis into upper-INCLUSIVE bands: finite
band `k` captures exactly the prices in `(k·i·1000, (k+1)·i·1000]` (band 0
also capturing everything below), and the unbounded band captures exactly
the prices strictly above `n·i·1000`, where `n = ceil(limit/interval)` is
the number of finite bands — so each boundary belongs to the band below it,
and the unbounded band starts strictly above `ceil(limit/interval)·i·1000`,
which is `limit × 1000` only when `interval` divides `limit`. -/
theorem C1_amended (i L : ℤ) (hi : 0 < i) (hL : i ≤ L) :
    ∃ spec : BandSpec, volume_bands i L = .ok spec ∧
      spec.uppers.length = pyRangeLen L i ∧
      0 < pyRangeLen L i ∧
      (∀ (p : ℚ) (k : ℕ), k < pyRangeLen L i →
        (classifyIdx spec p = k ↔
          (((k : ℚ) * (i : ℚ) * 1000 < p ∧ p ≤ ((k : ℚ) + 1) * (i : ℚ) * 1000) ∨
            (k = 0 ∧ p ≤ (i : ℚ) * 1000)))) ∧
      (∀ p : ℚ, classifyIdx spec p = pyRangeLen L i ↔
          ((pyRangeLen L i : ℚ) * (i : ℚ) * 1000 < p)) := by
  have hi0 : i ≠ 0 := ne_of_gt hi
  set n := pyRangeLen L i with hn
  have hnpos : 0 < n := (pyRangeLen_pos_iff L i hi0).mpr (Or.inl ⟨hi, by omega⟩)
  have hipos : (0 : ℚ) < (i : ℚ) := by exact_mod_cast hi
  have hpr : pyRange0 L i = some ((List.range n).map fun k : ℕ => (k : ℤ) * i) := by
    rw [pyRange0, if_neg hi0]
  have hne : ((List.range n).map fun k : ℕ => (k : ℤ) * i) ≠ [] := by
    simp only [ne_eq, List.map_eq_nil_iff, List.range_eq_nil]
    omega
  have hvb : volume_bands i L = .ok
      { uppers := ((List.range n).map fun k : ℕ => (k : ℤ) * i).map fun j => (j + i) * 1000
        labels := ((List.range n).map fun k : ℕ => (k : ℤ) * i).map
          fun j => bound j ++ "-" ++ bound (j + i)
        overLabel :=
          "Over " ++ bound (((List.range n).map fun k : ℕ => (k : ℤ) * i).getLast hne + i) } := by
    simp [volume_bands, hpr, hne]
  have hup2 : (((List.range n).map fun k : ℕ => (k : ℤ) * i).map fun j => (j + i) * 1000)
      = (List.range n).map fun k : ℕ => ((k : ℤ) * i + i) * 1000 := by
    rw [List.map_map]
    rfl
  refine ⟨_, hvb, ?_, hnpos, ?_, ?_⟩
  · simp only [hup2, List.length_map, List.length_range]
  · intro p k hk
    simp only [classifyIdx, hup2]
    rw [matchIdx_range_eq_iff n (fun k : ℕ => ((k : ℤ) * i + i) * 1000) p k hk]
    constructor
    · rintro ⟨h1, h2⟩
      cases k with
      | zero =>
        right
        refine ⟨rfl, ?_⟩
        push_cast at h1
        linarith
      | succ m =>
        left
        have h3 := h2 m (Nat.lt_succ_self m)
        push_cast at h1 h3
        constructor
        · push_cast
          linarith
        · push_cast
          linarith
    · intro h
      have hub : p ≤ (((((k : ℕ) : ℤ) * i + i) * 1000 : ℤ) : ℚ) := by
        rcases h with ⟨_, hub⟩ | ⟨rfl, hub⟩
        · push_cast
          linarith
        · push_cast
          linarith
      refine ⟨hub, ?_⟩
      intro j hj
      have hlb : ((k : ℚ)) * (i : ℚ) * 1000 < p := by
        rcases h with ⟨hlb, _⟩ | ⟨rfl, hub⟩
        · exact hlb
        · exact absurd hj (Nat.not_lt_zero j)
      have hji : (j : ℚ) + 1 ≤ (k : ℚ) := by exact_mod_cast Nat.succ_le_of_lt hj
      have hmul : ((j : ℚ) + 1) * (i : ℚ) ≤ (k : ℚ) * (i : ℚ) :=
        mul_le_mul_of_nonneg_right hji (le_of_lt hipos)
      push_cast
      linarith
  · intro p
    simp only [classifyIdx, hup2]
    rw [matchIdx_range_eq_len_iff n (fun k : ℕ => ((k : ℤ) * i + i) * 1000) p]
    constructor
    · intro hall
      have h3 := hall (n - 1) (by omega)
      have hcast : (((n - 1 : ℕ) : ℚ)) = (n : ℚ) - 1 := by
        have h1 : (1 : ℕ) ≤ n := hnpos
        push_cast [h1]
        ring
      push_cast at h3
      rw [hcast] at h3
      linarith
    · intro hub j hj
      have hji : (j : ℚ) + 1 ≤ (n : ℚ) := by exact_mod_cast Nat.succ_le_of_lt hj
      have hmul : ((j : ℚ) + 1) * (i : ℚ) ≤ (n : ℚ) * (i : ℚ) :=
        mul_le_mul_of_nonneg_right hji (le_of_lt hipos)
      push_cast
      linarith

/-- Witness for C1 at `interval=100, limit=300`. -/
theorem C1_witness :
    ∃ spec : BandSpec, volume_bands 100 300 = .ok spec ∧
      spec.uppers.length = pyRangeLen 300 100 ∧
      0 < pyRangeLen 300 100 ∧
      (∀ (p : ℚ) (k : ℕ), k < pyRangeLen 300 100 →
        (classifyIdx spec p = k ↔
          (((k : ℚ) * ((100 : ℤ) : ℚ) * 1000 < p ∧ p ≤ ((k : ℚ) + 1) * ((100 : ℤ) : ℚ) * 1000) ∨
            (k = 0 ∧ p ≤ ((100 : ℤ) : ℚ) * 1000)))) ∧
      (∀ p : ℚ, classifyIdx spec p = pyRangeLen 300 100 ↔
          ((pyRangeLen 300 100 : ℚ) * ((100 : ℤ) : ℚ) * 1000 < p)) :=
  C1_amended 100 300 (by decide) (by decide)
